import Mathlib

/-!
Verification of the device session and log journal engine of `nerroglove`
(`src/services.ts`, `src/components/CenterPanel.tsx`).

The TypeScript source is shallowly embedded: strings are `String` or
`List Char`, timestamps are epoch milliseconds (`Nat`), the browser's
`localStorage` is a key-value map, the transport and the Gemini backend are
parameters of the functions that consume them, and the `logFn`/`connChange`
callbacks are recorded as emitted events.
-/

namespace Services

/-! ## Line Framer (read loop of `connectSerial`, services.ts lines 193-206)

The read loop keeps a `buffer`, appends every arriving chunk, splits on the
regex `/\r?\n/`, pops the trailing (possibly incomplete) segment back into
the buffer, and emits each remaining segment trimmed, skipping blanks. -/

/-- One step of the JS `String.prototype.split(/\r?\n/)` regex: a segment
ends at each `'\n'`, and a `'\r'` immediately before that `'\n'` is consumed
with it.  `consHead c parts` prepends `c` to the first segment. -/
def consHead (c : Char) : List (List Char) → List (List Char)
  | [] => [[c]]
  | r :: rs => (c :: r) :: rs

/-- `buffer.split(/\r?\n/)` from services.ts line 199, on the character
list of the buffer.  Always returns at least one (possibly empty) segment;
the last segment is the unterminated tail. -/
def splitCRLF : List Char → List (List Char)
  | [] => [[]]
  | c :: cs =>
    if c = '\n' then [] :: splitCRLF cs
    else if c = '\r' ∧ cs.head? = some '\n' then splitCRLF cs
    else consHead c (splitCRLF cs)

/-- The character class removed by JS `String.prototype.trim` (ASCII
whitespace, NBSP and the BOM; the exotic Unicode space code points never
occur in the claims' inputs). -/
def isJsWhitespace (c : Char) : Bool :=
  c == ' ' || c == '\t' || c == '\n' || c == '\r' || c == '\x0b' || c == '\x0c' ||
    c == '\u00A0' || c == '\uFEFF'

/-- JS `String.prototype.trim` on a character list (services.ts line 202). -/
def trimChars (l : List Char) : List Char :=
  ((l.dropWhile isJsWhitespace).reverse.dropWhile isJsWhitespace).reverse

/-- JS `String.prototype.trim`. -/
def jsTrim (s : String) : String :=
  ⟨trimChars s.data⟩

/-- Lines 201-204 of services.ts: each complete segment is trimmed and
emitted unless blank. -/
def emitParts (parts : List (List Char)) : List (List Char) :=
  (parts.map trimChars).filter (fun t => !t.isEmpty)

/-- One iteration of the read loop on a received chunk (services.ts lines
197-205): split `buffer ++ chunk`, keep the popped tail as the new buffer,
emit the trimmed non-blank complete segments. -/
def framerStep (buffer chunk : List Char) : List Char × List (List Char) :=
  let parts := splitCRLF (buffer ++ chunk)
  (parts.getLastD [], emitParts parts.dropLast)

/-- The whole read loop on a finite sequence of received chunks, starting
from a given buffer: returns the final buffer and all emitted messages in
arrival order. -/
def feedChunks : List Char → List (List Char) → List Char × List (List Char)
  | buf, [] => (buf, [])
  | buf, c :: cs =>
    let p := framerStep buf c
    let q := feedChunks p.1 cs
    (q.1, p.2 ++ q.2)

/-- The spec's batch description of the framer: concatenate all chunks,
split on line terminators, drop the trailing unterminated remainder, trim,
and discard blanks. -/
def specEmit (s : List Char) : List (List Char) :=
  emitParts (splitCRLF s).dropLast

theorem splitCRLF_newline (cs : List Char) :
    splitCRLF ('\n' :: cs) = [] :: splitCRLF cs := by
  simp [splitCRLF]

theorem splitCRLF_crlf (cs : List Char) (h : cs.head? = some '\n') :
    splitCRLF ('\r' :: cs) = splitCRLF cs := by
  have h1 : ('\r' : Char) ≠ '\n' := by decide
  simp [splitCRLF, h, h1]

theorem splitCRLF_cons_other (c : Char) (cs : List Char) (hc : c ≠ '\n')
    (hcr : ¬ (c = '\r' ∧ cs.head? = some '\n')) :
    splitCRLF (c :: cs) = consHead c (splitCRLF cs) := by
  simp only [splitCRLF]
  rw [if_neg hc, if_neg hcr]

theorem splitCRLF_ne_nil (l : List Char) : splitCRLF l ≠ [] := by
  induction l with
  | nil => simp [splitCRLF]
  | cons c cs ih =>
    simp only [splitCRLF]
    split
    · simp
    · split
      · exact ih
      · cases hS : splitCRLF cs <;> simp [consHead]

theorem consHead_ne_nil (c : Char) (L : List (List Char)) : consHead c L ≠ [] := by
  cases L <;> simp [consHead]

theorem consHead_cons (c : Char) (r : List Char) (rs : List (List Char)) :
    consHead c (r :: rs) = (c :: r) :: rs := rfl

/-- No segment produced by the splitter contains a newline. -/
theorem splitCRLF_no_newline_mem (l : List Char) :
    ∀ s ∈ splitCRLF l, '\n' ∉ s := by
  induction l with
  | nil =>
    intro s hs
    simp [splitCRLF] at hs
    simp [hs]
  | cons c cs ih =>
    intro s hs
    by_cases hc : c = '\n'
    · subst hc
      rw [splitCRLF_newline] at hs
      rcases List.mem_cons.mp hs with h | h
      · simp [h]
      · exact ih s h
    · by_cases hcr : c = '\r' ∧ cs.head? = some '\n'
      · obtain ⟨hcr1, hcr2⟩ := hcr
        subst hcr1
        rw [splitCRLF_crlf cs hcr2] at hs
        exact ih s hs
      · rw [splitCRLF_cons_other c cs hc hcr] at hs
        obtain ⟨r, rs, hS⟩ := List.exists_cons_of_ne_nil (splitCRLF_ne_nil cs)
        rw [hS] at hs
        simp only [consHead] at hs
        rcases List.mem_cons.mp hs with h | h
        · subst h
          intro hmem
          rcases List.mem_cons.mp hmem with h1 | h1
          · exact hc h1.symm
          · exact ih r (hS ▸ List.mem_cons_self r rs) h1
        · exact ih s (hS ▸ List.mem_cons_of_mem r h)

/-- A buffer that contains no newline is returned whole as the single
unterminated segment. -/
theorem splitCRLF_of_no_newline (l : List Char) (h : '\n' ∉ l) :
    splitCRLF l = [l] := by
  induction l with
  | nil => rfl
  | cons c cs ih =>
    have hc : c ≠ '\n' := fun hcn => h (hcn ▸ List.mem_cons_self c cs)
    have hcs : '\n' ∉ cs := fun hm => h (List.mem_cons_of_mem c hm)
    have hcr : ¬ (c = '\r' ∧ cs.head? = some '\n') := by
      rintro ⟨-, hhd⟩
      exact hcs (List.mem_of_mem_head? hhd)
    rw [splitCRLF_cons_other c cs hc hcr, ih hcs]
    rfl

/-- Splitting a nonempty list never collapses to the single empty segment. -/
theorem splitCRLF_ne_singleton_nil (l : List Char) (h : l ≠ []) :
    splitCRLF l ≠ [[]] := by
  induction l with
  | nil => exact absurd rfl h
  | cons c cs ih =>
    by_cases hc : c = '\n'
    · subst hc
      rw [splitCRLF_newline]
      intro he
      exact splitCRLF_ne_nil cs (by simpa using he)
    · by_cases hcr : c = '\r' ∧ cs.head? = some '\n'
      · obtain ⟨hcr1, hcr2⟩ := hcr
        subst hcr1
        rw [splitCRLF_crlf cs hcr2]
        have hcs : cs ≠ [] := by
          intro he
          rw [he] at hcr2
          simp at hcr2
        exact ih hcs
      · rw [splitCRLF_cons_other c cs hc hcr]
        cases hS : splitCRLF cs with
        | nil => exact absurd hS (splitCRLF_ne_nil cs)
        | cons r rs => simp [consHead]

/-- Splitting a concatenation: the complete segments of `x` are final, and
the unterminated tail of `x` is re-split together with `y`.  This is the
fact that makes chunk-at-a-time framing agree with batch splitting, and it
holds even when a `"\r\n"` terminator straddles the boundary, because the
tail keeps the pending `'\r'`. -/
theorem splitCRLF_append (x y : List Char) :
    splitCRLF (x ++ y) =
      (splitCRLF x).dropLast ++ splitCRLF ((splitCRLF x).getLastD [] ++ y) := by
  induction x with
  | nil => simp [splitCRLF]
  | cons c cs ih =>
    by_cases hc : c = '\n'
    · subst hc
      rw [List.cons_append, splitCRLF_newline, splitCRLF_newline]
      obtain ⟨s, ss, hS⟩ := List.exists_cons_of_ne_nil (splitCRLF_ne_nil cs)
      rw [hS] at ih ⊢
      rw [ih]
      simp [List.dropLast_cons₂, List.getLastD_cons]
    · by_cases hcr : c = '\r' ∧ cs.head? = some '\n'
      · obtain ⟨h1, h2⟩ := hcr
        subst h1
        have h3 : (cs ++ y).head? = some '\n' := by
          cases cs with
          | nil => simp at h2
          | cons a t => simpa using h2
        rw [List.cons_append, splitCRLF_crlf _ h3, splitCRLF_crlf cs h2, ih]
      · cases cs with
        | nil =>
          have h1 : splitCRLF [c] = [[c]] := by
            rw [splitCRLF_cons_other c [] hc (by simp)]
            rfl
          simp [h1, List.getLastD_cons]
        | cons a t =>
          have hcr2 : ¬ (c = '\r' ∧ ((a :: t) ++ y).head? = some '\n') := by
            rintro ⟨hr, hh⟩
            rw [List.cons_append] at hh
            simp only [List.head?_cons, Option.some.injEq] at hh
            exact hcr ⟨hr, by simp [hh]⟩
          obtain ⟨s, ss, hS⟩ := List.exists_cons_of_ne_nil (splitCRLF_ne_nil (a :: t))
          have hmem : '\n' ∉ s :=
            splitCRLF_no_newline_mem (a :: t) s (hS ▸ List.mem_cons_self s ss)
          rw [List.cons_append, splitCRLF_cons_other c _ hc hcr2, ih,
            splitCRLF_cons_other c _ hc hcr, hS]
          cases ss with
          | nil =>
            have hs0 : s ≠ [] := by
              intro he
              exact splitCRLF_ne_singleton_nil (a :: t) (List.cons_ne_nil a t)
                (by rw [hS, he])
            obtain ⟨sh, st, rfl⟩ := List.exists_cons_of_ne_nil hs0
            have hsh : sh ≠ '\n' := by
              intro he
              exact hmem (he ▸ List.mem_cons_self sh st)
            have hcr3 : ¬ (c = '\r' ∧ (((sh :: st) : List Char) ++ y).head? = some '\n') := by
              rintro ⟨-, hh⟩
              rw [List.cons_append] at hh
              simp only [List.head?_cons, Option.some.injEq] at hh
              exact hsh hh
            simp only [consHead_cons, List.dropLast_single, List.nil_append,
              List.getLastD_cons, List.getLastD_nil]
            conv_rhs => rw [List.cons_append]
            rw [splitCRLF_cons_other c _ hc hcr3]
          | cons b bs =>
            simp [consHead, List.dropLast_cons₂, List.getLastD_cons, List.cons_append]

theorem getLastD_irrel {α : Type} (B : List α) (h : B ≠ []) (d₁ d₂ : α) :
    B.getLastD d₁ = B.getLastD d₂ := by
  obtain ⟨b, bs, rfl⟩ := List.exists_cons_of_ne_nil h
  rw [List.getLastD_cons, List.getLastD_cons]

theorem getLastD_append_ne {α : Type} (A B : List α) (h : B ≠ []) (d : α) :
    (A ++ B).getLastD d = B.getLastD d := by
  induction A generalizing d with
  | nil => rfl
  | cons a as ih =>
    rw [List.cons_append, List.getLastD_cons, ih a, getLastD_irrel B h a d]

theorem splitCRLF_getLastD_no_newline (l : List Char) :
    '\n' ∉ (splitCRLF l).getLastD [] := by
  have h := List.getLastD_mem_cons (splitCRLF l) []
  rcases List.mem_cons.mp h with h1 | h1
  · rw [h1]
    simp
  · exact splitCRLF_no_newline_mem l _ h1

theorem emitParts_append (A B : List (List Char)) :
    emitParts (A ++ B) = emitParts A ++ emitParts B := by
  simp [emitParts, List.filter_append]

/-- The read loop run from a newline-free buffer behaves like one batch
split of the buffer followed by everything received. -/
theorem feedChunks_spec (chunks : List (List Char)) (buf : List Char)
    (h : '\n' ∉ buf) :
    feedChunks buf chunks =
      ((splitCRLF (buf ++ chunks.flatten)).getLastD [],
        specEmit (buf ++ chunks.flatten)) := by
  induction chunks generalizing buf with
  | nil =>
    rw [List.flatten_nil, List.append_nil]
    simp only [feedChunks, specEmit]
    rw [splitCRLF_of_no_newline buf h]
    simp [emitParts, List.getLastD_cons]
  | cons c cs ih =>
    have hQ := splitCRLF_ne_nil ((splitCRLF (buf ++ c)).getLastD [] ++ cs.flatten)
    simp only [feedChunks, framerStep]
    rw [ih _ (splitCRLF_getLastD_no_newline _)]
    simp only [specEmit, List.flatten_cons, ← List.append_assoc]
    rw [splitCRLF_append (buf ++ c) cs.flatten]
    rw [getLastD_append_ne _ _ hQ, List.dropLast_append_of_ne_nil _ hQ,
      emitParts_append]

/-- Claim C1: for every sequence of chunks fed to the framer in order, the
messages emitted are exactly the non-empty trimmed lines of the
concatenation of all chunks split on `\r?\n`, minus the trailing
unterminated remainder; and feeding `"OK\r\n"`, `"TEMP="`, `"42\n"` emits
exactly `"OK"` then `"TEMP=42"`. -/
theorem framer_stream_equals_batch :
    (∀ chunks : List (List Char),
      (feedChunks [] chunks).2 = specEmit chunks.flatten) ∧
    (feedChunks [] ["OK\r\n".data, "TEMP=".data, "42\n".data]).2 =
      ["OK".data, "TEMP=42".data] := by
  constructor
  · intro chunks
    rw [feedChunks_spec chunks [] (by simp)]
    simp
  · decide

/-! ## Data model (services.ts lines 16-25)

`LogEntry.timestamp` is epoch milliseconds; `Dir.inn`/`Dir.out` embed the
string literals `'in'`/`'out'`. -/

inductive Dir
  | inn
  | out
  deriving DecidableEq, Repr

structure LogEntry where
  timestamp : Nat
  text : String
  direction : Dir
  deriving DecidableEq, Repr

inductive ConnectionType
  | Disconnected
  | Bluetooth
  | Serial
  deriving DecidableEq, Repr

/-! ## Log Journal (services.ts lines 103-141)

`localStorage` is embedded as a partial map from keys to the decoded JSON
value it stores for that key (an ordered array of entries); the
JSON encode/decode round trip through `Date.prototype.toJSON` and
`new Date(iso)` preserves the fields. -/

def Store : Type := String → Option (List LogEntry)

def emptyStore : Store := fun _ => none

def getItem (st : Store) (k : String) : Option (List LogEntry) := st k

def setItem (st : Store) (k : String) (v : List LogEntry) : Store :=
  fun k2 => if k2 = k then some v else st k2

/-- Civil date from days since 1970-01-01 (the Gregorian conversion that
`Date.prototype.toISOString` performs), returned as (year, month, day). -/
def civilFromDays (days : Nat) : Nat × Nat × Nat :=
  let z := days + 719468
  let era := z / 146097
  let doe := z % 146097
  let yoe := (doe - doe / 1460 + doe / 36524 - doe / 146096) / 365
  let y := yoe + era * 400
  let doy := doe - (365 * yoe + yoe / 4 - yoe / 100)
  let mp := (5 * doy + 2) / 153
  let d := doy - (153 * mp + 2) / 5 + 1
  let m := if mp < 10 then mp + 3 else mp - 9
  (if m ≤ 2 then y + 1 else y, m, d)

def pad2 (n : Nat) : String :=
  if n < 10 then "0" ++ toString n else toString n

def pad4 (n : Nat) : String :=
  if n < 10 then "000" ++ toString n
  else if n < 100 then "00" ++ toString n
  else if n < 1000 then "0" ++ toString n
  else toString n

/-- `date.toISOString().slice(0, 10)`: the UTC calendar date
`YYYY-MM-DD` of an epoch-millisecond timestamp. -/
def isoDateUTC (ms : Nat) : String :=
  let c := civilFromDays (ms / 86400000)
  pad4 c.1 ++ "-" ++ pad2 c.2.1 ++ "-" ++ pad2 c.2.2

/-- `getLogKey` (services.ts lines 104-106): key format
`ng_logs_YYYY-MM-DD`, from the UTC date of the timestamp. -/
def getLogKey (ms : Nat) : String :=
  "ng_logs_" ++ isoDateUTC ms

/-- `saveLog` (services.ts lines 109-118): read the day partition of the
entry's own timestamp, push, write back.  The catch around a persistence
fault is not taken in this model (the store never throws). -/
def saveLog (st : Store) (log : LogEntry) : Store :=
  let key := getLogKey log.timestamp
  let existing := (getItem st key).getD []
  setItem st key (existing ++ [log])

/-- `loadLogsForDate` (services.ts lines 121-136): a missing key yields
`[]`;  otherwise each stored record is rebuilt field by field. -/
def loadLogsForDate (st : Store) (date : Nat) : List LogEntry :=
  match getItem st (getLogKey date) with
  | none => []
  | some raw =>
    raw.map (fun l => { timestamp := l.timestamp, text := l.text, direction := l.direction })

/-- `loadLogsForToday` (services.ts lines 139-141): delegate to
`loadLogsForDate` at the current instant. -/
def loadLogsForToday (st : Store) (now : Nat) : List LogEntry :=
  loadLogsForDate st now

/-! ## Device connection service (services.ts lines 147-241)

The module-level mutable state is `port` (the open serial port, by
identifier) plus the last connection kind reported through `connChange`;
the `logFn`/`connChange` callbacks are recorded as a list of events.  The
`reader.cancel()`/`port.close()` teardown calls act only on the transport
and are not observable through the embedded state. -/

deriving instance DecidableEq for Except

inductive Ev
  | log (text : String) (d : Dir)
  | conn (c : ConnectionType)
  deriving DecidableEq, Repr

structure ConnSt where
  port : Option Nat
  conn : ConnectionType
  deriving DecidableEq, Repr

/-- `disconnect` (services.ts lines 233-241): unconditionally clear the
port, notify `Disconnected`, then journal the `'Disconnected'` line. -/
def disconnect (_st : ConnSt) : ConnSt × List Ev :=
  ({ port := none, conn := ConnectionType.Disconnected },
    [Ev.conn ConnectionType.Disconnected, Ev.log "Disconnected" Dir.inn])

structure StepOut where
  state : ConnSt
  result : Except String Unit
  events : List Ev

/-- The connect phase of `connectSerial` (services.ts lines 178-211), up to
the start of the read loop (the loop itself is `feedChunks`).  `supported`
is the `'serial' in navigator` test; `openResult` is the outcome of
`requestPort()` + `open()`.  Note there is no check of an existing `port`:
a successful open overwrites it.  On failure the catch journals the error,
calls `disconnect()` and rethrows. -/
def connectSerialStep (st : ConnSt) (supported : Bool)
    (openResult : Except String Nat) : StepOut :=
  if supported then
    match openResult with
    | .ok p =>
      { state := { port := some p, conn := ConnectionType.Serial }
        result := .ok ()
        events := [Ev.log "Serial port opened" Dir.inn,
          Ev.conn ConnectionType.Serial] }
    | .error e =>
      let d := disconnect st
      { state := d.1
        result := .error e
        events := Ev.log ("Serial connection error: " ++ e) Dir.inn :: d.2 }
  else
    { state := st, result := .error "Web Serial not supported.", events := [] }

structure SendOut where
  written : List String
  logged : List Ev
  raised : Option String
  deriving DecidableEq, Repr

/-- `sendMessage` (services.ts lines 215-230): with an open writable port,
write `text + '\n'` and journal `Sent: <text>` outbound; a write fault is
caught and journaled inbound; with no port, journal
`'No serial device connected'` outbound.  No branch throws to the caller
(`raised` is always `none`). -/
def sendMessage (port : Option Nat) (writeResult : Except String Unit)
    (text : String) : SendOut :=
  match port with
  | some _ =>
    match writeResult with
    | .ok _ =>
      { written := [text ++ "\n"]
        logged := [Ev.log ("Sent: " ++ text) Dir.out]
        raised := none }
    | .error e =>
      { written := []
        logged := [Ev.log ("Serial write error: " ++ e) Dir.inn]
        raised := none }
  | none =>
    { written := []
      logged := [Ev.log "No serial device connected" Dir.out]
      raised := none }

/-- `handleSend` (CenterPanel.tsx lines 87-92): send only when
`cmd.trim()` is truthy, passing the untrimmed `cmd`. -/
def handleSend (port : Option Nat) (writeResult : Except String Unit)
    (cmd : String) : SendOut :=
  if jsTrim cmd ≠ "" then sendMessage port writeResult cmd
  else { written := [], logged := [], raised := none }

/-! ## Translation service (services.ts lines 57-93)

The memo cache is an association list (insertion-only `Map`);
`aiAvailable` is whether `getTranslationAi()` yields a client (an API key
is configured); `svcResult` is the outcome of the external
`generateContent` call; `calls` counts the external calls issued. -/

def lookupCache (cache : List (String × String)) (k : String) : Option String :=
  (cache.find? (fun kv => kv.1 == k)).map (fun kv => kv.2)

structure TransOut where
  cache : List (String × String)
  result : Except String String
  calls : Nat
  deriving DecidableEq, Repr

/-- `translateText` (services.ts lines 71-93): `'en'` passes through
before anything else; then the cache is consulted; on a miss the client is
required and the external call made, its trimmed response cached under
`en:<lang>:<text>`; a service fault becomes `'Failed to translate text.'`. -/
def translateText (aiAvailable : Bool) (svcResult : Except String String)
    (cache : List (String × String)) (text targetLang : String) : TransOut :=
  if targetLang = "en" then { cache := cache, result := .ok text, calls := 0 }
  else
    let cacheKey := "en:" ++ targetLang ++ ":" ++ text
    match lookupCache cache cacheKey with
    | some t => { cache := cache, result := .ok t, calls := 0 }
    | none =>
      if aiAvailable then
        match svcResult with
        | .ok raw =>
          { cache := (cacheKey, jsTrim raw) :: cache
            result := .ok (jsTrim raw)
            calls := 1 }
        | .error _ =>
          { cache := cache, result := .error "Failed to translate text.", calls := 1 }
      else { cache := cache, result := .error "Gemini AI not initialized.", calls := 0 }

/-! ## Journal theorems (C2, C9) -/

theorem getItem_setItem (st : Store) (k : String) (v : List LogEntry) :
    getItem (setItem st k v) k = some v := by
  simp [getItem, setItem]

theorem rebuild_map_id (l : List LogEntry) :
    l.map (fun e => ({ timestamp := e.timestamp, text := e.text, direction := e.direction } : LogEntry)) = l := by
  induction l with
  | nil => rfl
  | cons e es ih => rw [List.map_cons, ih]

theorem loadLogsForDate_eq (st : Store) (d : Nat) :
    loadLogsForDate st d = (getItem st (getLogKey d)).getD [] := by
  cases h : getItem st (getLogKey d) with
  | none => simp [loadLogsForDate, h]
  | some raw => simp [loadLogsForDate, h, rebuild_map_id]

theorem saveLog_foldl (l : List LogEntry) (st : Store) (D : Nat)
    (hD : ∀ e ∈ l, getLogKey e.timestamp = getLogKey D) :
    (getItem (l.foldl saveLog st) (getLogKey D)).getD [] =
      (getItem st (getLogKey D)).getD [] ++ l := by
  induction l generalizing st with
  | nil => simp
  | cons e es ih =>
    have hk : getLogKey e.timestamp = getLogKey D := hD e (List.mem_cons_self e es)
    rw [List.foldl_cons, ih (saveLog st e) (fun x hx => hD x (List.mem_cons_of_mem e hx))]
    simp [saveLog, hk, getItem_setItem]

/-- Claim C2: starting from a store with no partition for date `D`, after
appending the entries of `l` (all timestamped on the same UTC day as `D`)
in order, `loadLogsForDate D` returns exactly `l` in append order; and on
the original store the missing partition yields the empty sequence rather
than a failure. -/
theorem journal_roundtrip (st : Store) (D : Nat) (l : List LogEntry)
    (h0 : getItem st (getLogKey D) = none)
    (hD : ∀ e ∈ l, getLogKey e.timestamp = getLogKey D) :
    loadLogsForDate (l.foldl saveLog st) D = l ∧ loadLogsForDate st D = [] := by
  constructor
  · rw [loadLogsForDate_eq, saveLog_foldl l st D hD, h0]
    rfl
  · rw [loadLogsForDate_eq, h0]
    rfl

/-- Witness for C2 at a concrete date and two concrete entries. -/
theorem journal_roundtrip_witness :
    loadLogsForDate
        (([⟨0, "hi", Dir.inn⟩, ⟨1000, "ok", Dir.out⟩] : List LogEntry).foldl
          saveLog emptyStore) 0 =
      [⟨0, "hi", Dir.inn⟩, ⟨1000, "ok", Dir.out⟩] ∧
    loadLogsForDate emptyStore 0 = [] :=
  journal_roundtrip emptyStore 0 _ rfl (by decide)

/-- Modelled from the spec: the journal key of the caller's local calendar
day, for a caller whose local clock runs `offsetMinutes` ahead of UTC.
The source computes no such key (it uses `toISOString`, which is UTC);
this definition renders the spec's words "the caller's local calendar
day" so the two can be compared. -/
def specLocalDayKey (offsetMinutes ms : Nat) : String :=
  "ng_logs_" ++ isoDateUTC (ms + offsetMinutes * 60000)

/-- Claim C9 counterexample: at 23:00 UTC on 1970-01-01 a caller at UTC+2
is already in local day 1970-01-02, yet `loadLogsForToday` consults the
UTC partition: a store holding an entry under the local day's partition
returns the empty list. -/
theorem today_local_day_counterexample :
    getLogKey 82800000 ≠ specLocalDayKey 120 82800000 ∧
    loadLogsForToday
        (setItem emptyStore (specLocalDayKey 120 82800000)
          [⟨82800000, "hi", Dir.inn⟩])
        82800000 = [] := by
  decide

/-- Claim C9 amended: `loadLogsForToday` returns exactly what
`loadLogsForDate` returns at the current instant, and the partition
consulted is keyed by the UTC calendar day of that instant (not the
caller's local day). -/
theorem today_equals_date_utc (st : Store) (now : Nat) :
    loadLogsForToday st now = loadLogsForDate st now ∧
    getLogKey now = "ng_logs_" ++ isoDateUTC now :=
  ⟨rfl, rfl⟩

/-! ## Connection theorems (C4, C6, C7) -/

/-- Claim C7: a transport-open fault during connect is rethrown to the
caller, additionally journaled as an inbound diagnostic, and the
connection state ends at Disconnected. -/
theorem connect_fault_surfaced (st : ConnSt) (e : String) :
    (connectSerialStep st true (.error e)).result = .error e ∧
    Ev.log ("Serial connection error: " ++ e) Dir.inn ∈
      (connectSerialStep st true (.error e)).events ∧
    (connectSerialStep st true (.error e)).state =
      ⟨none, ConnectionType.Disconnected⟩ := by
  simp [connectSerialStep, disconnect]

/-- Claim C4 counterexample: connecting while a session on port 0 is
already connected does not fail with AlreadyConnected — it succeeds and
replaces the port with the newly opened port 1. -/
theorem connect_supersedes_counterexample :
    (connectSerialStep ⟨some 0, ConnectionType.Serial⟩ true (.ok 1)).result = .ok () ∧
    (connectSerialStep ⟨some 0, ConnectionType.Serial⟩ true (.ok 1)).state.port = some 1 := by
  constructor <;> rfl

/-- Claim C4 amended: a connect attempt while a session is already
connected does not fail; a successful open silently supersedes the
existing session, storing the new port. -/
theorem connect_supersedes_amended (st : ConnSt) (p : Nat)
    (_h : st.port.isSome = true) :
    (connectSerialStep st true (.ok p)).result = .ok () ∧
    (connectSerialStep st true (.ok p)).state.port = some p ∧
    (connectSerialStep st true (.ok p)).state.conn = ConnectionType.Serial := by
  simp [connectSerialStep]

/-- Witness for the amended C4 at a concrete connected state. -/
theorem connect_supersedes_amended_witness :
    (connectSerialStep ⟨some 5, ConnectionType.Serial⟩ true (.ok 7)).result = .ok () ∧
    (connectSerialStep ⟨some 5, ConnectionType.Serial⟩ true (.ok 7)).state.port = some 7 ∧
    (connectSerialStep ⟨some 5, ConnectionType.Serial⟩ true (.ok 7)).state.conn =
      ConnectionType.Serial :=
  connect_supersedes_amended ⟨some 5, ConnectionType.Serial⟩ 7 rfl

/-- Claim C6 counterexample: both the first and the second consecutive
`disconnect()` journal the `'Disconnected'` inbound diagnostic — the
second call does emit a duplicate. -/
theorem disconnect_duplicate_diagnostic_counterexample :
    Ev.log "Disconnected" Dir.inn ∈ (disconnect ⟨some 0, ConnectionType.Serial⟩).2 ∧
    Ev.log "Disconnected" Dir.inn ∈
      (disconnect (disconnect ⟨some 0, ConnectionType.Serial⟩).1).2 := by
  decide

/-- Claim C6 amended: `disconnect()` twice in a row yields state
Disconnected after each call, but the second call repeats the very same
notification and journaled `'Disconnected'` diagnostic as the first. -/
theorem disconnect_idempotent_amended (st : ConnSt) :
    (disconnect st).1.conn = ConnectionType.Disconnected ∧
    (disconnect (disconnect st).1).1 = (disconnect st).1 ∧
    (disconnect (disconnect st).1).2 = (disconnect st).2 := by
  simp [disconnect]

/-! ## Send theorems (C3, C5) -/

/-- Claim C3 counterexample: `send("ping")` over a connected channel does
not journal an entry whose text is `"ping"`; the journaled text is
`"Sent: ping"`. -/
theorem send_text_counterexample :
    Ev.log "ping" Dir.out ∉ (handleSend (some 0) (.ok ()) "ping").logged ∧
    (handleSend (some 0) (.ok ()) "ping").logged = [Ev.log "Sent: ping" Dir.out] := by
  decide

/-- Claim C3 amended: a blank string is a no-op (no log entry, no
transport write); a non-blank `s` over a connected, non-faulting channel
produces exactly one transport write of `s` plus a newline terminator and
exactly one outbound log entry whose text is `"Sent: " ++ s`. -/
theorem send_behavior_amended (s : String) :
    (jsTrim s = "" → ∀ (port : Option Nat) (w : Except String Unit),
      handleSend port w s = ⟨[], [], none⟩) ∧
    (jsTrim s ≠ "" → ∀ p : Nat,
      handleSend (some p) (.ok ()) s =
        ⟨[s ++ "\n"], [Ev.log ("Sent: " ++ s) Dir.out], none⟩) := by
  constructor
  · intro h port w
    simp [handleSend, h]
  · intro h p
    simp [handleSend, h, sendMessage]

/-- Witness for the amended C3 on a blank and on a non-blank input. -/
theorem send_behavior_amended_witness :
    handleSend none (.error "x") "   " = ⟨[], [], none⟩ ∧
    handleSend (some 0) (.ok ()) "ping" =
      ⟨["ping\n"], [Ev.log "Sent: ping" Dir.out], none⟩ :=
  ⟨(send_behavior_amended "   ").1 (by decide) none (.error "x"),
    (send_behavior_amended "ping").2 (by decide) 0⟩

/-- Claim C5 counterexample: `sendMessage` with no open channel raises
nothing to the caller (no NotConnected failure) while indeed performing no
transport write. -/
theorem send_not_connected_counterexample :
    (sendMessage none (.ok ()) "ping").raised = none ∧
    (sendMessage none (.ok ()) "ping").written = [] := by
  constructor <;> rfl

/-- Claim C5 amended: calling send while no channel is open performs no
transport write and journals an outbound `'No serial device connected'`
notice; the call returns normally instead of failing. -/
theorem send_not_connected_amended (w : Except String Unit) (s : String) :
    sendMessage none w s =
      ⟨[], [Ev.log "No serial device connected" Dir.out], none⟩ := rfl

/-! ## Translation theorems (C8, C10) -/

/-- Claim C8: after a successful first `translateText` call on a cache
miss, a second call with the same `(text, targetLang)` returns the same
translation from the cache, issues no external call, and leaves the cache
unchanged (each key is written at most once), whatever the service or the
API-key state does meanwhile. -/
theorem translate_cache_hit (cache : List (String × String))
    (text lang raw : String) (hlang : lang ≠ "en")
    (hmiss : lookupCache cache ("en:" ++ lang ++ ":" ++ text) = none) :
    (translateText true (.ok raw) cache text lang).result = .ok (jsTrim raw) ∧
    (translateText true (.ok raw) cache text lang).calls = 1 ∧
    ∀ (a2 : Bool) (svc2 : Except String String),
      translateText a2 svc2 (translateText true (.ok raw) cache text lang).cache
          text lang =
        ⟨(translateText true (.ok raw) cache text lang).cache,
          .ok (jsTrim raw), 0⟩ := by
  have h1 : translateText true (.ok raw) cache text lang =
      ⟨("en:" ++ lang ++ ":" ++ text, jsTrim raw) :: cache, .ok (jsTrim raw), 1⟩ := by
    simp [translateText, hlang, hmiss]
  refine ⟨by rw [h1], by rw [h1], ?_⟩
  intro a2 svc2
  rw [h1]
  simp [translateText, hlang, lookupCache]

/-- Witness for C8: `translate("hello", "fr")` twice, the service
answering `"bonjour"` once; the second call hits the cache even with the
service down. -/
theorem translate_cache_hit_witness :
    (translateText true (.ok "bonjour") [] "hello" "fr").result = .ok "bonjour" ∧
    translateText false (.error "down")
        (translateText true (.ok "bonjour") [] "hello" "fr").cache "hello" "fr" =
      ⟨(translateText true (.ok "bonjour") [] "hello" "fr").cache, .ok "bonjour", 0⟩ :=
  ⟨(translate_cache_hit [] "hello" "fr" "bonjour" (by decide) rfl).1,
    (translate_cache_hit [] "hello" "fr" "bonjour" (by decide) rfl).2.2
      false (.error "down")⟩

/-- Claim C10: `translateText text "en"` returns the input unchanged, with
an untouched cache, no external call, and a success result, regardless of
the API-key state or the service. -/
theorem translate_english_passthrough (a : Bool) (svc : Except String String)
    (cache : List (String × String)) (text : String) :
    translateText a svc cache text "en" = ⟨cache, .ok text, 0⟩ := by
  simp [translateText]

end Services
